import Mathlib

/-!
Verification of the ns-3 logging configuration core (src/core/model/log.h).

The header defines the `LogLevel` bitmask constants, the `LogComponent`
class (per-component enabled/blocked masks), the configuration-string
machinery, and the `ParameterLogger` separator logic.  Masks are `int32_t`
bit patterns; we model them as natural numbers below `2^32`, with bitwise
complement taken within the low 32 bits.
-/

namespace NS3Log

/-- Width constant: all 32 bits set, the domain of the `int32_t` masks. -/
def mask32 : Nat := 0xffffffff

/-- Bitwise complement within 32 bits, the meaning of `~x` on an `int32_t`
bit pattern. -/
def compl32 (x : Nat) : Nat := mask32 ^^^ x

/-! The `LogLevel` enumerators, transcribed from `log.h` lines 68-97. -/

def LOG_NONE : Nat := 0x00000000

def LOG_ERROR : Nat := 0x00000001

def LOG_LEVEL_ERROR : Nat := 0x00000001

def LOG_WARN : Nat := 0x00000002

def LOG_LEVEL_WARN : Nat := 0x00000003

def LOG_DEBUG : Nat := 0x00000004

def LOG_LEVEL_DEBUG : Nat := 0x00000007

def LOG_INFO : Nat := 0x00000008

def LOG_LEVEL_INFO : Nat := 0x0000000f

def LOG_FUNCTION : Nat := 0x00000010

def LOG_LEVEL_FUNCTION : Nat := 0x0000001f

def LOG_LOGIC : Nat := 0x00000020

def LOG_LEVEL_LOGIC : Nat := 0x0000003f

def LOG_ALL : Nat := 0x0fffffff

def LOG_LEVEL_ALL : Nat := LOG_ALL

def LOG_PREFIX_FUNC : Nat := 0x80000000

def LOG_PREFIX_TIME : Nat := 0x40000000

def LOG_PREFIX_NODE : Nat := 0x20000000

def LOG_PREFIX_LEVEL : Nat := 0x10000000

def LOG_PREFIX_ALL : Nat := 0xf0000000

/-- The six granular severity bits, in increasing severity-group order. -/
def granular : Fin 6 → Nat :=
![LOG_ERROR, LOG_WARN, LOG_DEBUG, LOG_INFO, LOG_FUNCTION, LOG_LOGIC]

/-- The six cumulative named groups, in the same order. -/
def cumulative : Fin 6 → Nat :=
![LOG_LEVEL_ERROR, LOG_LEVEL_WARN, LOG_LEVEL_DEBUG, LOG_LEVEL_INFO,
  LOG_LEVEL_FUNCTION, LOG_LEVEL_LOGIC]

/-- State of one `LogComponent`: the fields `m_levels` (enabled LogLevels),
`m_mask` (blocked LogLevels) and `m_name`, from `log.h` lines 532-534. -/
structure LogComponent where
  m_levels : Nat
  m_mask : Nat
  m_name : String
deriving DecidableEq

/-- Modelled from the spec: the body of `LogComponent::IsEnabled` lives in
`log.cc`, which is absent from the sources; spec 4.2 gives
`IsEnabled(level) -> bool`: true iff `(enabled & level) != 0`. -/
def LogComponent.isEnabled (c : LogComponent) (level : Nat) : Bool :=
  c.m_levels &&& level != 0

/-- Modelled from the spec: the body of `LogComponent::IsNoneEnabled` lives in
`log.cc`, absent from the sources; spec 4.2: true iff `enabled == 0`. -/
def LogComponent.isNoneEnabled (c : LogComponent) : Bool :=
  c.m_levels == 0

/-- Modelled from the spec: the body of `LogComponent::Enable` lives in
`log.cc`, absent from the sources; spec 4.2 gives
`Enable(level)`: `enabled |= (level & ~blocked)`. -/
def LogComponent.enable (c : LogComponent) (level : Nat) : LogComponent :=
  { c with m_levels := c.m_levels ||| (level &&& compl32 c.m_mask) }

/-- Modelled from the spec: the body of `LogComponent::Disable` lives in
`log.cc`, absent from the sources; spec 4.2 gives
`Disable(level)`: `enabled &= ~level`. -/
def LogComponent.disable (c : LogComponent) (level : Nat) : LogComponent :=
  { c with m_levels := c.m_levels &&& compl32 level }

/-- Modelled from the spec: the body of `LogComponent::SetMask` lives in
`log.cc`, absent from the sources; spec 4.2: `SetMask(level)` adds bits to
`blocked` and simultaneously clears those bits from `enabled`. -/
def LogComponent.setMask (c : LogComponent) (level : Nat) : LogComponent :=
  { c with m_mask := c.m_mask ||| level,
           m_levels := c.m_levels &&& compl32 level }

/-! Small bit-level toolkit used throughout. -/

theorem and_eq_zero_of_testBit {x y : Nat}
    (h : ∀ i, x.testBit i = true → y.testBit i = false) : x &&& y = 0 := by
  apply Nat.eq_of_testBit_eq
  intro i
  simp only [Nat.testBit_and, Nat.zero_testBit]
  cases hx : x.testBit i with
  | false => simp
  | true => simp [h i hx]

theorem testBit_eq_false_of_and_eq_zero {x y : Nat} (h : x &&& y = 0)
    {i : Nat} (hx : x.testBit i = true) : y.testBit i = false := by
  cases hyy : y.testBit i with
  | false => rfl
  | true =>
    have hb : (x &&& y).testBit i = true := by
      simp [Nat.testBit_and, hx, hyy]
    rw [h, Nat.zero_testBit] at hb
    exact absurd hb (by simp)

theorem testBit_mask32 (i : Nat) : mask32.testBit i = decide (i < 32) := by
  have h1 : mask32 = 2 ^ 32 - 1 := by norm_num [mask32]
  rw [h1, Nat.testBit_two_pow_sub_one]

theorem testBit_compl32 {m : Nat} (hm : m < 2 ^ 32) (i : Nat) :
    (compl32 m).testBit i = (decide (i < 32) && !m.testBit i) := by
  rcases Nat.lt_or_ge i 32 with h | h
  · simp [compl32, Nat.testBit_xor, testBit_mask32, h]
  · have hhigh : m.testBit i = false := by
      apply Nat.testBit_lt_two_pow
      exact Nat.lt_of_lt_of_le hm (Nat.pow_le_pow_right (by decide) h)
    simp [compl32, Nat.testBit_xor, testBit_mask32, Nat.not_lt.mpr h, hhigh]

theorem compl32_lt {m : Nat} (hm : m < 2 ^ 32) : compl32 m < 2 ^ 32 := by
  apply Nat.lt_pow_two_of_testBit
  intro i hi
  rw [testBit_compl32 hm i]
  simp [Nat.not_lt.mpr hi]

theorem or_lt_32 {x y : Nat} (hx : x < 2 ^ 32) (hy : y < 2 ^ 32) :
    x ||| y < 2 ^ 32 := by
  apply Nat.lt_pow_two_of_testBit
  intro i hi
  have hxb : x.testBit i = false :=
    Nat.testBit_lt_two_pow (Nat.lt_of_lt_of_le hx (Nat.pow_le_pow_right (by decide) hi))
  have hyb : y.testBit i = false :=
    Nat.testBit_lt_two_pow (Nat.lt_of_lt_of_le hy (Nat.pow_le_pow_right (by decide) hi))
  simp [Nat.testBit_or, hxb, hyb]

/-- C1 counterexample: `LOG_ALL` (equal to `LOG_LEVEL_ALL`) is not a bitmask
superset of the prefix bit `LOG_PREFIX_FUNC`: OR-ing the prefix bit into
`LOG_ALL` changes it, so the claimed superset relation fails there. -/
theorem c1_all_not_superset_of_prefix_bits :
    ¬ (LOG_ALL ||| LOG_PREFIX_FUNC = LOG_ALL ∧
       LOG_ALL ||| LOG_PREFIX_TIME = LOG_ALL ∧
       LOG_ALL ||| LOG_PREFIX_NODE = LOG_ALL ∧
       LOG_ALL ||| LOG_PREFIX_LEVEL = LOG_ALL ∧
       LOG_ALL ||| LOG_PREFIX_ALL = LOG_ALL) := by
  intro h
  exact absurd h.1 (by decide)

/-- C1 amended: `LOG_ALL` (= `LOG_LEVEL_ALL`) is a bitmask superset of every
named non-prefix `LogLevel` constant, but it is disjoint from the four prefix
bits and from their union `LOG_PREFIX_ALL`. -/
theorem c1_all_superset_of_nonprefix_constants :
    LOG_NONE ||| LOG_ALL = LOG_ALL ∧
    LOG_ERROR ||| LOG_ALL = LOG_ALL ∧
    LOG_LEVEL_ERROR ||| LOG_ALL = LOG_ALL ∧
    LOG_WARN ||| LOG_ALL = LOG_ALL ∧
    LOG_LEVEL_WARN ||| LOG_ALL = LOG_ALL ∧
    LOG_DEBUG ||| LOG_ALL = LOG_ALL ∧
    LOG_LEVEL_DEBUG ||| LOG_ALL = LOG_ALL ∧
    LOG_INFO ||| LOG_ALL = LOG_ALL ∧
    LOG_LEVEL_INFO ||| LOG_ALL = LOG_ALL ∧
    LOG_FUNCTION ||| LOG_ALL = LOG_ALL ∧
    LOG_LEVEL_FUNCTION ||| LOG_ALL = LOG_ALL ∧
    LOG_LOGIC ||| LOG_ALL = LOG_ALL ∧
    LOG_LEVEL_LOGIC ||| LOG_ALL = LOG_ALL ∧
    LOG_LEVEL_ALL = LOG_ALL ∧
    LOG_PREFIX_FUNC &&& LOG_ALL = 0 ∧
    LOG_PREFIX_TIME &&& LOG_ALL = 0 ∧
    LOG_PREFIX_NODE &&& LOG_ALL = 0 ∧
    LOG_PREFIX_LEVEL &&& LOG_ALL = 0 ∧
    LOG_PREFIX_ALL &&& LOG_ALL = 0 := by
  refine ⟨?_, ?_, ?_, ?_, ?_, ?_, ?_, ?_, ?_, ?_, ?_, ?_, ?_, ?_, ?_, ?_, ?_, ?_, ?_⟩ <;> decide

/-- C2: each cumulative named group equals the OR of its own granular bit with
all granular bits of lower severity, the groups form an inclusion chain, and
enabling the cumulative group containing a higher-severity granular level on a
freshly constructed component (no block mask) makes every lower-severity
granular level enabled. -/
theorem c2_cumulative_groups :
    LOG_LEVEL_ERROR = LOG_ERROR ∧
    LOG_LEVEL_WARN = LOG_WARN ||| LOG_ERROR ∧
    LOG_LEVEL_DEBUG = LOG_DEBUG ||| LOG_WARN ||| LOG_ERROR ∧
    LOG_LEVEL_INFO = LOG_INFO ||| LOG_DEBUG ||| LOG_WARN ||| LOG_ERROR ∧
    LOG_LEVEL_FUNCTION =
      LOG_FUNCTION ||| LOG_INFO ||| LOG_DEBUG ||| LOG_WARN ||| LOG_ERROR ∧
    LOG_LEVEL_LOGIC =
      LOG_LOGIC ||| LOG_FUNCTION ||| LOG_INFO ||| LOG_DEBUG ||| LOG_WARN ||| LOG_ERROR ∧
    (∀ i j : Fin 6, i ≤ j → cumulative i &&& cumulative j = cumulative i) ∧
    (∀ (name : String) (i j : Fin 6), i < j →
      ((⟨0, 0, name⟩ : LogComponent).enable (cumulative j)).isEnabled
        (granular i) = true) := by
  refine ⟨by decide, by decide, by decide, by decide, by decide, by decide, by decide, ?_⟩
  intro name i j h
  show ((0 ||| (cumulative j &&& compl32 0)) &&& granular i != 0) = true
  revert h
  revert i j
  decide

/-- C2 witness: concrete instance of the inclusion chain and of the
enabling consequence for the lowest and highest severities. -/
theorem c2_cumulative_groups_witness :
    cumulative 0 &&& cumulative 5 = cumulative 0 ∧
    ((⟨0, 0, "A"⟩ : LogComponent).enable (cumulative 5)).isEnabled
      (granular 0) = true :=
  ⟨c2_cumulative_groups.2.2.2.2.2.2.1 0 5 (by decide),
   c2_cumulative_groups.2.2.2.2.2.2.2 "A" 0 5 (by decide)⟩

/-- C4: `Enable(level)` ORs exactly the bits `level & ~blocked` into the
enabled mask and changes nothing else; when every bit of `level` is blocked
the component is left completely unchanged, and bitwise, exactly the
unblocked bits of `level` are added. -/
theorem c4_enable_sets_unblocked_bits (c : LogComponent) (level : Nat) :
    (c.enable level).m_levels = c.m_levels ||| (level &&& compl32 c.m_mask) ∧
    (c.enable level).m_mask = c.m_mask ∧
    (c.enable level).m_name = c.m_name ∧
    (level &&& compl32 c.m_mask = 0 → c.enable level = c) ∧
    (c.m_mask < 2 ^ 32 → ∀ i, i < 32 →
      (c.enable level).m_levels.testBit i =
        (c.m_levels.testBit i || (level.testBit i && !c.m_mask.testBit i))) := by
  refine ⟨rfl, rfl, rfl, ?_, ?_⟩
  · intro h
    cases c with
    | mk lv mk nm => simp [LogComponent.enable] at h ⊢; simp [h]
  · intro hm i hi
    show (c.m_levels ||| (level &&& compl32 c.m_mask)).testBit i = _
    rw [Nat.testBit_or, Nat.testBit_and, testBit_compl32 hm i]
    simp [hi]

/-- C4 witness: with blocked mask `1`, enabling level `1` is the identity,
and enabling level `2` sets exactly bit `1`. -/
theorem c4_enable_sets_unblocked_bits_witness :
    ((⟨0, 1, "A"⟩ : LogComponent).enable 1 = ⟨0, 1, "A"⟩) ∧
    ((⟨0, 1, "A"⟩ : LogComponent).enable 2).m_levels.testBit 1 =
      ((0 : Nat).testBit 1 || ((2 : Nat).testBit 1 && !(1 : Nat).testBit 1)) :=
  ⟨(c4_enable_sets_unblocked_bits ⟨0, 1, "A"⟩ 1).2.2.2.1 (by decide),
   (c4_enable_sets_unblocked_bits ⟨0, 1, "A"⟩ 2).2.2.2.2 (by decide) 1 (by decide)⟩

/-- C5: `IsEnabled(level)` is true exactly when `(enabled & level) != 0`; it
is an any-of bitwise test, not an equality test, as a component whose enabled
mask differs from the queried multi-bit value still reports true. -/
theorem c5_isEnabled_bitwise_test (c : LogComponent) (level : Nat) :
    (c.isEnabled level = true ↔ c.m_levels &&& level ≠ 0) ∧
    (∃ d : LogComponent, ∃ l : Nat,
      d.isEnabled l = true ∧ d.m_levels ≠ l) := by
  constructor
  · simp [LogComponent.isEnabled]
  · exact ⟨⟨3, 0, "X"⟩, 1, by decide, by decide⟩

/-! C3: the `enabled & blocked == 0` invariant under arbitrary operation
sequences. -/

/-- One mutating call on a `LogComponent`. -/
inductive LogOp where
  | enableOp (level : Nat)
  | disableOp (level : Nat)
  | setMaskOp (level : Nat)
deriving DecidableEq

/-- Apply one call to a component. -/
def applyOp (c : LogComponent) : LogOp → LogComponent
  | .enableOp level => c.enable level
  | .disableOp level => c.disable level
  | .setMaskOp level => c.setMask level

/-- Apply a sequence of calls, first element first. -/
def applyOps (c : LogComponent) (ops : List LogOp) : LogComponent :=
  ops.foldl applyOp c

/-- Level argument carried by a call. -/
def LogOp.level : LogOp → Nat
  | .enableOp level => level
  | .disableOp level => level
  | .setMaskOp level => level

/-- Component state as the constructor first builds it, before the
configuration replay: `enabled = 0`, `blocked = 0`, then `SetMask(mask)`
(spec 4.3 steps 1-2). -/
def mkRaw (name : String) (mask : Nat) : LogComponent :=
  (⟨0, 0, name⟩ : LogComponent).setMask mask

/-- Internal well-formedness: bit disjointness plus 32-bit bounds. -/
def Inv (c : LogComponent) : Prop :=
  c.m_levels &&& c.m_mask = 0 ∧ c.m_levels < 2 ^ 32 ∧ c.m_mask < 2 ^ 32

theorem and_right_le_lt {x y : Nat} (hy : y < 2 ^ 32) : x &&& y < 2 ^ 32 :=
  Nat.lt_of_le_of_lt Nat.and_le_right hy

theorem enable_m_levels (c : LogComponent) (level : Nat) :
    (c.enable level).m_levels = c.m_levels ||| (level &&& compl32 c.m_mask) := rfl

theorem enable_m_mask (c : LogComponent) (level : Nat) :
    (c.enable level).m_mask = c.m_mask := rfl

theorem disable_m_levels (c : LogComponent) (level : Nat) :
    (c.disable level).m_levels = c.m_levels &&& compl32 level := rfl

theorem disable_m_mask (c : LogComponent) (level : Nat) :
    (c.disable level).m_mask = c.m_mask := rfl

theorem setMask_m_levels (c : LogComponent) (level : Nat) :
    (c.setMask level).m_levels = c.m_levels &&& compl32 level := rfl

theorem setMask_m_mask (c : LogComponent) (level : Nat) :
    (c.setMask level).m_mask = c.m_mask ||| level := rfl

theorem inv_enable {c : LogComponent} (h : Inv c) (level : Nat) :
    Inv (c.enable level) := by
  obtain ⟨hd, hl, hm⟩ := h
  refine ⟨?_, ?_, hm⟩
  · rw [enable_m_levels, enable_m_mask]
    apply and_eq_zero_of_testBit
    intro i hi
    rw [Nat.testBit_or] at hi
    cases hx : c.m_levels.testBit i with
    | true => exact testBit_eq_false_of_and_eq_zero hd hx
    | false =>
      rw [hx, Bool.false_or] at hi
      rw [Nat.testBit_and, testBit_compl32 hm i] at hi
      rcases Nat.lt_or_ge i 32 with h32 | h32
      · simp [h32] at hi
        exact hi.2
      · simp [Nat.not_lt.mpr h32] at hi
  · rw [enable_m_levels]
    exact or_lt_32 hl (and_right_le_lt (compl32_lt hm))

theorem inv_disable {c : LogComponent} (h : Inv c) (level : Nat) :
    Inv (c.disable level) := by
  obtain ⟨hd, hl, hm⟩ := h
  refine ⟨?_, Nat.lt_of_le_of_lt Nat.and_le_left hl, hm⟩
  rw [disable_m_levels, disable_m_mask]
  apply and_eq_zero_of_testBit
  intro i hi
  rw [Nat.testBit_and, Bool.and_eq_true] at hi
  exact testBit_eq_false_of_and_eq_zero hd hi.1

theorem inv_setMask {c : LogComponent} (h : Inv c) {level : Nat}
    (hlv : level < 2 ^ 32) : Inv (c.setMask level) := by
  obtain ⟨hd, hl, hm⟩ := h
  refine ⟨?_, Nat.lt_of_le_of_lt Nat.and_le_left hl, or_lt_32 hm hlv⟩
  rw [setMask_m_levels, setMask_m_mask]
  apply and_eq_zero_of_testBit
  intro i hi
  rw [Nat.testBit_and, Bool.and_eq_true] at hi
  have hi1 : c.m_levels.testBit i = true := hi.1
  have hi2 : (compl32 level).testBit i = true := hi.2
  have hmb : c.m_mask.testBit i = false :=
    testBit_eq_false_of_and_eq_zero hd hi1
  have hib : i < 32 := by
    by_contra hcon
    have : c.m_levels.testBit i = false := by
      apply Nat.testBit_lt_two_pow
      exact Nat.lt_of_lt_of_le hl
        (Nat.pow_le_pow_right (by decide) (Nat.le_of_not_lt hcon))
    simp [this] at hi1
  rw [testBit_compl32 hlv i] at hi2
  simp [hib] at hi2
  rw [Nat.testBit_or, hmb, hi2]
  rfl

theorem inv_applyOp {c : LogComponent} (h : Inv c) {op : LogOp}
    (hop : op.level < 2 ^ 32) : Inv (applyOp c op) := by
  cases op with
  | enableOp level => exact inv_enable h level
  | disableOp level => exact inv_disable h level
  | setMaskOp level => exact inv_setMask h hop

theorem inv_applyOps {ops : List LogOp} :
    ∀ {c : LogComponent}, Inv c → (∀ op ∈ ops, op.level < 2 ^ 32) →
      Inv (applyOps c ops) := by
  induction ops with
  | nil => intro c h _; exact h
  | cons op ops ih =>
    intro c h hop
    exact ih (inv_applyOp h (hop op (List.mem_cons_self op ops)))
      (fun o ho => hop o (List.mem_cons_of_mem op ho))

theorem inv_mkRaw (name : String) {mask : Nat} (hmask : mask < 2 ^ 32) :
    Inv (mkRaw name mask) := by
  have h0 : (0 : Nat) < 2 ^ 32 := by norm_num
  have hz : (0 : Nat) &&& 0 = 0 := rfl
  exact inv_setMask ⟨hz, h0, h0⟩ hmask

theorem isEnabled_false_of_blocked {c : LogComponent} (h : Inv c)
    {level : Nat} (hb : level &&& compl32 c.m_mask = 0) :
    c.isEnabled level = false := by
  obtain ⟨hd, hl, hm⟩ := h
  have hz : c.m_levels &&& level = 0 := by
    apply and_eq_zero_of_testBit
    intro i hi
    have hib : i < 32 := by
      by_contra hcon
      have : c.m_levels.testBit i = false := by
        apply Nat.testBit_lt_two_pow
        exact Nat.lt_of_lt_of_le hl
          (Nat.pow_le_pow_right (by decide) (Nat.le_of_not_lt hcon))
      simp [this] at hi
    have hmb : c.m_mask.testBit i = false :=
      testBit_eq_false_of_and_eq_zero hd hi
    have hcb : (compl32 c.m_mask).testBit i = true := by
      rw [testBit_compl32 hm i]
      simp [hib, hmb]
    exact testBit_eq_false_of_and_eq_zero (by rwa [Nat.and_comm] at hb) hcb
  simp [LogComponent.isEnabled, hz]

/-- C3: starting from construction (`enabled = 0`, then `SetMask(mask)`),
after any sequence of `Enable`, `Disable` and `SetMask` calls on 32-bit level
values, `enabled & blocked == 0` holds, and `IsEnabled` of a level all of
whose bits are blocked is `false`. -/
theorem c3_enabled_blocked_disjoint (name : String) (mask : Nat)
    (ops : List LogOp) (hmask : mask < 2 ^ 32)
    (hops : ∀ op ∈ ops, op.level < 2 ^ 32) :
    (applyOps (mkRaw name mask) ops).m_levels &&&
      (applyOps (mkRaw name mask) ops).m_mask = 0 ∧
    ∀ level,
      level &&& compl32 (applyOps (mkRaw name mask) ops).m_mask = 0 →
      (applyOps (mkRaw name mask) ops).isEnabled level = false := by
  have hinv : Inv (applyOps (mkRaw name mask) ops) :=
    inv_applyOps (inv_mkRaw name hmask) hops
  exact ⟨hinv.1, fun level hb => isEnabled_false_of_blocked hinv hb⟩

/-- C3 witness: blocked mask `3`, then enable `3`, disable `2`, re-enable:
the masks stay disjoint and the fully blocked level `3` stays disabled. -/
theorem c3_enabled_blocked_disjoint_witness :
    (applyOps (mkRaw "A" 3) [.enableOp 3, .disableOp 2, .enableOp 3]).m_levels &&&
      (applyOps (mkRaw "A" 3) [.enableOp 3, .disableOp 2, .enableOp 3]).m_mask = 0 ∧
    (applyOps (mkRaw "A" 3) [.enableOp 3, .disableOp 2, .enableOp 3]).isEnabled 3 = false := by
  have h := c3_enabled_blocked_disjoint "A" 3
    [.enableOp 3, .disableOp 2, .enableOp 3] (by decide)
    (by intro op hop; fin_cases hop <;> decide)
  exact ⟨h.1, h.2 3 (by decide)⟩

/-! C10: the `ParameterLogger` separator behaviour, from the inline body of
`ParameterLogger::operator<<` in `log.h` lines 561-574. -/

/-- State of a `ParameterLogger`: the first-argument flag and the text
written so far to the underlying stream. -/
structure ParameterLogger where
  m_first : Bool
  m_os : String
deriving DecidableEq

/-- One application of `ParameterLogger::operator<<`: the first parameter is
written bare and clears the flag, later parameters are written after `", "`.
Parameters are modelled by the text their stream insertion produces. -/
def ParameterLogger.stream (pl : ParameterLogger) (param : String) :
    ParameterLogger :=
  if pl.m_first then { m_first := false, m_os := pl.m_os ++ param }
  else { pl with m_os := pl.m_os ++ ", " ++ param }

/-- Chain of `operator<<` applications, left to right. -/
def ParameterLogger.streamAll (pl : ParameterLogger) (ps : List String) :
    ParameterLogger :=
  ps.foldl ParameterLogger.stream pl

/-- Text emitted for the parameters after the first: each is preceded by
exactly `", "`. -/
def joinSep : List String → String
  | [] => ""
  | q :: qs => ", " ++ q ++ joinSep qs

theorem streamAll_not_first (ps : List String) :
    ∀ s : String, ParameterLogger.streamAll ⟨false, s⟩ ps =
      ⟨false, s ++ joinSep ps⟩ := by
  induction ps with
  | nil => intro s; simp [ParameterLogger.streamAll, joinSep]
  | cons q qs ih =>
    intro s
    show ParameterLogger.streamAll
      (ParameterLogger.stream ⟨false, s⟩ q) qs = _
    rw [ParameterLogger.stream]
    simp only [Bool.false_eq_true, if_false]
    rw [ih (s ++ ", " ++ q)]
    simp [joinSep, String.append_assoc]

/-- C10: streaming parameters `p :: ps` through a fresh `ParameterLogger`
emits the first parameter with no separator and each later parameter
preceded by exactly `", "`, and the first-flag ends up cleared. -/
theorem c10_parameter_separators (p : String) (ps : List String) :
    ParameterLogger.streamAll ⟨true, ""⟩ (p :: ps) =
      ⟨false, p ++ joinSep ps⟩ := by
  show ParameterLogger.streamAll (ParameterLogger.stream ⟨true, ""⟩ p) ps = _
  rw [ParameterLogger.stream]
  simp only [if_true]
  rw [show ("" ++ p : String) = p from String.empty_append p]
  exact streamAll_not_first ps p

/-! Configuration-string parsing and the registry protocol.  The bodies of
`LogComponent::EnvVarCheck`, `LogComponentEnableAll` and
`LogComponentPrintList` live in `log.cc`, absent from the sources, so this
machinery is modelled from the spec (sections 4.3 and 4.4). -/

/-- One parsed configuration clause: a target (component name or the
wildcard `"*"`) and the level set to enable. -/
structure Directive where
  target : String
  levels : Nat
deriving DecidableEq

/-- Split a character list on a separator, keeping empty groups. -/
def splitOnChar (sep : Char) : List Char → List (List Char)
  | [] => [[]]
  | c :: cs =>
    if c = sep then [] :: splitOnChar sep cs
    else
      match splitOnChar sep cs with
      | [] => [[c]]
      | g :: gs => (c :: g) :: gs

/-- Modelled from the spec: the canonical level-name table of the parser in
`log.cc` (absent from the sources); spec 4.4 lists the case-sensitively
matched names. -/
def lookupLevel (s : List Char) : Option Nat :=
  if s = "error".data then some LOG_ERROR
  else if s = "warn".data then some LOG_WARN
  else if s = "debug".data then some LOG_DEBUG
  else if s = "info".data then some LOG_INFO
  else if s = "function".data then some LOG_FUNCTION
  else if s = "logic".data then some LOG_LOGIC
  else if s = "level_error".data then some LOG_LEVEL_ERROR
  else if s = "level_warn".data then some LOG_LEVEL_WARN
  else if s = "level_debug".data then some LOG_LEVEL_DEBUG
  else if s = "level_info".data then some LOG_LEVEL_INFO
  else if s = "level_function".data then some LOG_LEVEL_FUNCTION
  else if s = "level_logic".data then some LOG_LEVEL_LOGIC
  else if s = "level_all".data then some LOG_LEVEL_ALL
  else if s = "prefix_func".data then some LOG_PREFIX_FUNC
  else if s = "prefix_time".data then some LOG_PREFIX_TIME
  else if s = "prefix_node".data then some LOG_PREFIX_NODE
  else if s = "prefix_level".data then some LOG_PREFIX_LEVEL
  else if s = "prefix_all".data then some LOG_PREFIX_ALL
  else if s = "all".data then some LOG_ALL
  else none

/-- Modelled from the spec: resolve a `'|'`-separated level expression by
OR-ing the named levels; any unrecognized name makes the whole expression a
configuration error (spec 4.4 and 7). -/
def resolveLevelExpr : List (List Char) → Option Nat
  | [] => some 0
  | t :: ts =>
    match lookupLevel t, resolveLevelExpr ts with
    | some l, some r => some (l ||| r)
    | _, _ => none

/-- Modelled from the spec: parse one clause `target ('=' levelExpr)?`; a
bare target defaults to all granular levels and no prefixes (spec 4.4). -/
def parseClause (cl : List Char) : Option Directive :=
  match splitOnChar '=' cl with
  | [t] => some ⟨String.mk t, LOG_LEVEL_ALL⟩
  | [t, e] => (resolveLevelExpr (splitOnChar '|' e)).map
      (fun l => ⟨String.mk t, l⟩)
  | _ => none

/-- Level-name tokens appearing in one clause. -/
def clauseLevelTokens (cl : List Char) : List (List Char) :=
  match splitOnChar '=' cl with
  | [_, e] => splitOnChar '|' e
  | _ => []

/-- Modelled from the spec: parse the `':'`-separated clause list; any bad
clause makes the whole configuration a parse error, never a partial
result (spec 7). -/
def resolveClauses : List (List Char) → Option (List Directive)
  | [] => some []
  | cl :: cls =>
    match parseClause cl, resolveClauses cls with
    | some d, some ds => some (d :: ds)
    | _, _ => none

/-- Modelled from the spec: the whole configuration string parsed into
directives. -/
def parseConfig (s : String) : Option (List Directive) :=
  resolveClauses (splitOnChar ':' s.data)

/-- Modelled from the spec: replay of the parsed directives at component
construction (spec 4.3 step 3): each directive whose target is this
component's name or the wildcard is applied through `Enable`, in order. -/
def applyDirectives (c : LogComponent) (ds : List Directive) : LogComponent :=
  ds.foldl
    (fun c d => if d.target = c.m_name ∨ d.target = "*" then c.enable d.levels
                else c) c

/-- Modelled from the spec: the `LogComponent` constructor together with
`EnvVarCheck` (both in `log.cc`, absent from the sources); spec 4.3: start
with `enabled = 0`, apply `SetMask(mask)`, then, unless the configuration
string is the `print-list` sentinel, replay the parsed directives. -/
def mkComponent (name : String) (mask : Nat) (config : String) :
    LogComponent :=
  if config = "print-list" then mkRaw name mask
  else
    match parseConfig config with
    | some ds => applyDirectives (mkRaw name mask) ds
    | none => mkRaw name mask

/-- Modelled from the spec: `LogComponentEnableAll` (body in `log.cc`,
absent from the sources) iterates the registry and enables the level on
every currently registered component (spec 4.3). -/
def enableAll (reg : List LogComponent) (level : Nat) : List LogComponent :=
  reg.map (fun c => c.enable level)

/-- Registering one more component after the existing ones. -/
def registerComponent (reg : List LogComponent) (name : String) (mask : Nat)
    (config : String) : List LogComponent :=
  reg ++ [mkComponent name mask config]

/-- Modelled from the spec: processing one configuration string against the
registry; the whole-string sentinel `print-list` (spec 4.3 step 4) mutates
nothing and yields the listing of registered names, otherwise the parsed
directives are applied to every component. -/
def processConfigOnRegistry (s : String) (reg : List LogComponent) :
    List LogComponent × Option (List String) :=
  if s = "print-list" then (reg, some (reg.map (fun c => c.m_name)))
  else
    match parseConfig s with
    | some ds => (reg.map (fun c => applyDirectives c ds), none)
    | none => (reg, none)

/-- C6: parsing `"*=error"` before any component exists and then
constructing component `"A"` with no block mask replays the wildcard
directive, so error is enabled and warn is not. -/
theorem c6_wildcard_replayed_at_construction :
    (mkComponent "A" 0 "*=error").isEnabled LOG_ERROR = true ∧
    (mkComponent "A" 0 "*=error").isEnabled LOG_WARN = false := by
  constructor <;> decide

theorem resolveLevelExpr_none {tokens : List (List Char)} {t : List Char}
    (hmem : t ∈ tokens) (hbad : lookupLevel t = none) :
    resolveLevelExpr tokens = none := by
  induction tokens with
  | nil => cases hmem
  | cons u us ih =>
    rcases List.mem_cons.mp hmem with h | h
    · subst h
      simp [resolveLevelExpr, hbad]
    · rw [resolveLevelExpr, ih h]
      cases lookupLevel u <;> rfl

theorem parseClause_none {cl : List Char} {t : List Char}
    (hmem : t ∈ clauseLevelTokens cl) (hbad : lookupLevel t = none) :
    parseClause cl = none := by
  cases hsplit : splitOnChar '=' cl with
  | nil => simp [clauseLevelTokens, hsplit] at hmem
  | cons a rest =>
    cases rest with
    | nil => simp [clauseLevelTokens, hsplit] at hmem
    | cons b rest2 =>
      cases rest2 with
      | nil =>
        have hmem2 : t ∈ splitOnChar '|' b := by
          simpa [clauseLevelTokens, hsplit] using hmem
        simp [parseClause, hsplit, resolveLevelExpr_none hmem2 hbad]
      | cons d rest3 => simp [parseClause, hsplit]

theorem resolveClauses_none {cls : List (List Char)} {cl : List Char}
    (hmem : cl ∈ cls) (hbad : parseClause cl = none) :
    resolveClauses cls = none := by
  induction cls with
  | nil => cases hmem
  | cons u us ih =>
    rcases List.mem_cons.mp hmem with h | h
    · subst h
      simp [resolveClauses, hbad]
    · rw [resolveClauses, ih h]
      cases parseClause u <;> rfl

/-- C7: an unrecognized level name in any clause of the configuration string
is fatal at parse time: the parse yields no directive list at all, so no
partially-applied configuration can result and the error is never silently
ignored. -/
theorem c7_unknown_level_name_fatal (s : String) :
    (∃ cl ∈ splitOnChar ':' s.data,
      ∃ t ∈ clauseLevelTokens cl, lookupLevel t = none) →
    parseConfig s = none := by
  rintro ⟨cl, hcl, t, ht, hbad⟩
  unfold parseConfig
  exact resolveClauses_none hcl (parseClause_none ht hbad)

/-- C7 witness: the configuration string `"A=bogus"` has the unknown level
name `bogus` and fails to parse. -/
theorem c7_unknown_level_name_fatal_witness :
    parseConfig "A=bogus" = none :=
  c7_unknown_level_name_fatal "A=bogus"
    ⟨"A=bogus".data, by decide, "bogus".data, by decide, by decide⟩

theorem applyDirectives_no_match {c : LogComponent} {ds : List Directive}
    (h : ∀ d ∈ ds, d.target ≠ c.m_name ∧ d.target ≠ "*") :
    applyDirectives c ds = c := by
  induction ds with
  | nil => rfl
  | cons d ds ih =>
    have hd := h d (List.mem_cons_self d ds)
    show applyDirectives
      (if d.target = c.m_name ∨ d.target = "*" then c.enable d.levels else c)
      ds = c
    rw [if_neg (by rintro (h1 | h2); exact hd.1 h1; exact hd.2 h2)]
    exact ih (fun o ho => h o (List.mem_cons_of_mem d ho))

theorem mkRaw_m_levels (name : String) (mask : Nat) :
    (mkRaw name mask).m_levels = 0 := by
  show (0 : Nat) &&& compl32 mask = 0
  exact Nat.zero_and _

/-- C8: `LogComponentEnableAll` only touches the components registered when
it is called: a component constructed afterwards, whose name no directive of
the parsed configuration targets and with no wildcard directive present,
comes out with `enabled == 0`, and its state is exactly what construction
alone produces, independent of the earlier bulk enable. -/
theorem c8_enableAll_not_retained (reg : List LogComponent) (level : Nat)
    (name : String) (config : String) (ds : List Directive)
    (hp : parseConfig config = some ds)
    (hw : ∀ d ∈ ds, d.target ≠ name ∧ d.target ≠ "*") :
    (mkComponent name 0 config).m_levels = 0 ∧
    registerComponent (enableAll reg level) name 0 config =
      enableAll reg level ++ [mkComponent name 0 config] := by
  refine ⟨?_, rfl⟩
  unfold mkComponent
  by_cases hpl : config = "print-list"
  · rw [if_pos hpl]
    exact mkRaw_m_levels name 0
  · rw [if_neg hpl, hp]
    show (applyDirectives (mkRaw name 0) ds).m_levels = 0
    have hnm : ∀ d ∈ ds, d.target ≠ (mkRaw name 0).m_name ∧ d.target ≠ "*" := hw
    rw [applyDirectives_no_match hnm]
    exact mkRaw_m_levels name 0

/-- C8 witness: after bulk-enabling error on a one-component registry, a new
component `"C"` constructed under the wildcard-free configuration
`"A=error"` still has `enabled == 0`. -/
theorem c8_enableAll_not_retained_witness :
    (mkComponent "C" 0 "A=error").m_levels = 0 ∧
    registerComponent (enableAll [⟨0, 0, "X"⟩] LOG_ERROR) "C" 0 "A=error" =
      enableAll [⟨0, 0, "X"⟩] LOG_ERROR ++ [mkComponent "C" 0 "A=error"] :=
  c8_enableAll_not_retained [⟨0, 0, "X"⟩] LOG_ERROR "C" "A=error"
    [⟨"A", LOG_ERROR⟩] (by decide)
    (by intro d hd; fin_cases hd; exact ⟨by decide, by decide⟩)

/-- C9: processing the exact configuration string `"print-list"` leaves the
registry, hence every component's enabled and blocked masks, unchanged, and
yields the listing of all names registered so far; when registered names are
unique each name occurs exactly once in the listing. -/
theorem c9_print_list_pure (reg : List LogComponent) :
    processConfigOnRegistry "print-list" reg =
      (reg, some (reg.map (fun c => c.m_name))) ∧
    ((reg.map (fun c => c.m_name)).Nodup →
      ∀ n ∈ reg.map (fun c => c.m_name),
        (reg.map (fun c => c.m_name)).count n = 1) := by
  constructor
  · rw [processConfigOnRegistry, if_pos rfl]
  · intro hnd n hn
    exact List.count_eq_one_of_mem hnd hn

/-- C9 witness: a concrete two-component registry is left unchanged by
`"print-list"`, its listing is produced, and each name counts once. -/
theorem c9_print_list_pure_witness :
    processConfigOnRegistry "print-list" [⟨1, 0, "A"⟩, ⟨2, 4, "B"⟩] =
      ([⟨1, 0, "A"⟩, ⟨2, 4, "B"⟩], some ["A", "B"]) ∧
    (["A", "B"] : List String).count "A" = 1 :=
  ⟨(c9_print_list_pure [⟨1, 0, "A"⟩, ⟨2, 4, "B"⟩]).1,
   (c9_print_list_pure [⟨1, 0, "A"⟩, ⟨2, 4, "B"⟩]).2 (by decide) "A" (by decide)⟩

end NS3Log
